import Mathlib

/-!
Verification development for the `alhambra_mixes` quantity-propagation and
validation engine (files `mixes.py`, `echo.py`, `components.py`).

Modelling conventions:

* Decimal pint quantities are modelled as `DQ`: a rational magnitude or the
  NaN "undefined" sentinel.  All volumes are kept in µL and all
  concentrations in nM (the code converts between compatible units exactly,
  so a single unit per dimension loses nothing).  Python `Decimal`
  arithmetic rounds results to 28 significant digits; we use exact rational
  arithmetic.  No claim below depends on digits beyond the 28th, so the two
  agree on every statement proved here.
* IEEE/Decimal NaN semantics are kept: arithmetic on NaN yields NaN, every
  ordered comparison with NaN is false and `x != y` is true when either
  side is NaN.
* Python exceptions are modelled by `Except Err`.  Potentially
  non-terminating evaluation (two fill-to-volume actions can recurse into
  each other through the sibling-action list, a `RecursionError` in Python)
  is modelled with a fuel parameter; running out of fuel is an error.
-/

set_option linter.unusedVariables false

set_option allowUnsafeReducibility true
attribute [semireducible] Rat.mul Rat.add Rat.sub Rat.div Rat.inv Rat.neg
attribute [semireducible] Rat.normalize mkRat

namespace AlhambraMixes

/-- Exceptions of the modelled code. -/
inductive Err where
  | fuelOut
  | divByZero
  | invalidOperation
  | concentrationsDiffer
  | notImplemented
  | emptyActions
  | emptySeq
  | indexError
  | volumeNotDropletMultiple
  | mismatchedReferences
deriving DecidableEq

/-- A decimal pint quantity: a rational magnitude, or the NaN sentinel that
the code uses for "undefined". -/
inductive DQ where
  | nan : DQ
  | val : ℚ → DQ
deriving DecidableEq

namespace DQ

/-- Python `isnan` on the magnitude. -/
def isNan : DQ → Bool
  | nan => true
  | val _ => false

/-- Addition; NaN propagates. -/
def add : DQ → DQ → DQ
  | val a, val b => val (a + b)
  | _, _ => nan

/-- Subtraction; NaN propagates. -/
def sub : DQ → DQ → DQ
  | val a, val b => val (a - b)
  | _, _ => nan

/-- Multiplication; NaN propagates. -/
def mul : DQ → DQ → DQ
  | val a, val b => val (a * b)
  | _, _ => nan

/-- Division.  NaN propagates; a defined numerator over an exact zero raises
(`decimal.DivisionByZero`). -/
def div : DQ → DQ → Except Err DQ
  | nan, _ => .ok nan
  | _, nan => .ok nan
  | val a, val b => if b = 0 then .error .divByZero else .ok (val (a / b))

/-- Python `<` on quantities: false whenever either side is NaN. -/
def pyLt : DQ → DQ → Bool
  | val a, val b => decide (a < b)
  | _, _ => false

/-- Python `==` on quantities: false whenever either side is NaN. -/
def pyEq : DQ → DQ → Bool
  | val a, val b => decide (a = b)
  | _, _ => false

/-- Python `!=` on quantities: true whenever either side is NaN. -/
def pyNe (x y : DQ) : Bool := !(pyEq x y)

/-- Python truthiness of a quantity magnitude: `bool(Decimal('nan'))` is
true, zero is false. -/
def pyTruthy : DQ → Bool
  | nan => true
  | val a => decide (a ≠ 0)

/-- Truncated quotient, the one `Decimal.__mod__`'s remainder is taken
against (remainder carries the dividend's sign). -/
def ratTrunc (q : ℚ) : ℤ := if q < 0 then ⌈q⌉ else ⌊q⌋

/-- Python `%` on decimal magnitudes.  NaN propagates; `x % 0` raises
`InvalidOperation`. -/
def pyMod : DQ → DQ → Except Err DQ
  | nan, _ => .ok nan
  | _, nan => .ok nan
  | val a, val b =>
    if b = 0 then .error .invalidOperation
    else .ok (val (a - b * ratTrunc (a / b)))

/-- Python `round` to an integer: banker's rounding (round half to even);
rounding NaN raises `InvalidOperation`. -/
def roundHalfEven (q : ℚ) : ℤ :=
  let f := ⌊q⌋
  let r := q - f
  if r < 1/2 then f
  else if 1/2 < r then f + 1
  else if f % 2 = 0 then f else f + 1

/-- `round` on a quantity magnitude (`Except` because `round(Decimal('nan'))`
raises). -/
def pyRound : DQ → Except Err ℤ
  | nan => .error .invalidOperation
  | val q => .ok (roundHalfEven q)

/-- Sum of a list of quantities, as `sum(..., 0)` computes it. -/
def sum (l : List DQ) : DQ := l.foldl add (val 0)

end DQ

/-- Python `max` over a nonempty list: keeps the current element unless a
later one compares strictly greater (NaN comparisons are false, so this is
order-dependent exactly as in Python).  `max` of an empty sequence raises. -/
def pyMax : List DQ → Except Err DQ
  | [] => .error .emptySeq
  | x :: rest => .ok (rest.foldl (fun acc y => if DQ.pyLt acc y then y else acc) x)

/-- Python `min` over a nonempty list, mirror image of `pyMax`. -/
def pyMin : List DQ → Except Err DQ
  | [] => .error .emptySeq
  | x :: rest => .ok (rest.foldl (fun acc y => if DQ.pyLt y acc then y else acc) x)

instance exceptDecEq {e a : Type} [DecidableEq e] [DecidableEq a] :
    DecidableEq (Except e a) := fun x y =>
  match x, y with
  | .ok v, .ok w =>
    if h : v = w then isTrue (by rw [h]) else isFalse (fun hc => h (by cases hc; rfl))
  | .error v, .error w =>
    if h : v = w then isTrue (by rw [h]) else isFalse (fun hc => h (by cases hc; rfl))
  | .ok _, .error _ => isFalse (fun hc => Except.noConfusion hc)
  | .error _, .ok _ => isFalse (fun hc => Except.noConfusion hc)

/-- `Except.isOk`, named locally. -/
def exOk {ε α : Type} : Except ε α → Bool
  | .ok _ => true
  | .error _ => false

/-- `method` of `EchoEqualTargetConcentration`
(`Literal["max_volume","min_volume","check"] | tuple[Literal["max_fill"], str]`). -/
inductive EchoMethod where
  | min_volume : EchoMethod
  | max_volume : EchoMethod
  | max_fill : String → EchoMethod
  | check : EchoMethod
deriving DecidableEq

mutual

/-- `AbstractComponent`: either a leaf `Component` (a name and a source
concentration in nM; plate/well are irrelevant to the claims) or a nested
`Mix` used as a component. -/
inductive Component : Type where
  | leaf (name : String) (concentration : DQ) : Component
  | mixc (m : Mix) : Component

/-- `Mix` (mixes.py): an ordered list of actions plus mix-level policy.
Fields, in order: `actions`, `name`, `fixed_total_volume` (NaN = "derive
from actions"), `fixed_concentration` (the explicit-quantity form; the
string-lookup form goes through pandas `all_components` and is outside the
claims), `buffer_name`, `min_volume`.  `test_tube_name` and `reference`
only affect rendering/reconciliation and are not modelled. -/
inductive Mix : Type where
  | mk (actions : List MAction) (name : String) (fixed_total_volume : DQ)
       (fixed_concentration : Option DQ) (buffer_name : String)
       (min_volume : DQ) : Mix

/-- The action variants the claims touch.
`fixedVolume`/`fixedConcentration` are `FixedVolume`/`FixedConcentration`
from actions.py (not under src/; modelled from the spec, §4.1).  The echo
variants are `EchoFixedVolume`, `EchoEqualTargetConcentration` and
`EchoFillToVolume` from echo.py.  `set_name`/`compact_display` only affect
rendering and are not modelled. -/
inductive MAction : Type where
  | fixedVolume (components : List Component) (fixed_volume : DQ) : MAction
  | fixedConcentration (components : List Component)
      (fixed_concentration : DQ) : MAction
  | echoFixedVolume (components : List Component) (fixed_volume : DQ)
      (droplet_volume : DQ) : MAction
  | echoEqualTargetConcentration (components : List Component)
      (fixed_volume : DQ) (droplet_volume : DQ) (method : EchoMethod) : MAction
  | echoFillToVolume (components : List Component)
      (target_total_volume : DQ) (droplet_volume : DQ) : MAction

end

namespace Mix

def actions : Mix → List MAction
  | .mk a _ _ _ _ _ => a

def name : Mix → String
  | .mk _ n _ _ _ _ => n

def fixed_total_volume : Mix → DQ
  | .mk _ _ f _ _ _ => f

def fixed_concentration : Mix → Option DQ
  | .mk _ _ _ c _ _ => c

def buffer_name : Mix → String
  | .mk _ _ _ _ b _ => b

def min_volume : Mix → DQ
  | .mk _ _ _ _ _ v => v

end Mix

/-- `AbstractComponent.name` / `Mix.name` as seen from an action's component
list (`printed_name` falls back to it). -/
def Component.name : Component → String
  | .leaf n _ => n
  | .mixc m => m.name

/-- `ActionWithComponents.components`. -/
def MAction.components : MAction → List Component
  | .fixedVolume cs _ => cs
  | .fixedConcentration cs _ => cs
  | .echoFixedVolume cs _ _ => cs
  | .echoEqualTargetConcentration cs _ _ _ => cs
  | .echoFillToVolume cs _ _ => cs

mutual

/-- Structural equality on components, standing in for Python object
identity in `a is not self` (see `MAction.each_volumes`).  Bounded by
fuel (running out compares unequal); any fuel at least the term depth is
exact. -/
def beqComponent (fuel : ℕ) (c c' : Component) : Bool :=
  match fuel with
  | 0 => false
  | n + 1 =>
    match c, c' with
    | .leaf nm q, .leaf nm' q' => nm == nm' && q == q'
    | .mixc m, .mixc m' => beqMix n m m'
    | _, _ => false

def beqComponents (fuel : ℕ) (cs cs' : List Component) : Bool :=
  match fuel with
  | 0 => false
  | n + 1 =>
    match cs, cs' with
    | [], [] => true
    | c :: rest, c' :: rest' => beqComponent n c c' && beqComponents n rest rest'
    | _, _ => false

def beqMix (fuel : ℕ) (m m' : Mix) : Bool :=
  match fuel with
  | 0 => false
  | n + 1 =>
    match m, m' with
    | .mk a nm f c b v, .mk a' nm' f' c' b' v' =>
      beqActions n a a' && nm == nm' && f == f' && c == c' && b == b' && v == v'

def beqActions (fuel : ℕ) (as as' : List MAction) : Bool :=
  match fuel with
  | 0 => false
  | n + 1 =>
    match as, as' with
    | [], [] => true
    | a :: rest, a' :: rest' => beqAction n a a' && beqActions n rest rest'
    | _, _ => false

def beqAction (fuel : ℕ) (a a' : MAction) : Bool :=
  match fuel with
  | 0 => false
  | n + 1 =>
    match a, a' with
    | .fixedVolume cs v, .fixedVolume cs' v' => beqComponents n cs cs' && v == v'
    | .fixedConcentration cs v, .fixedConcentration cs' v' =>
      beqComponents n cs cs' && v == v'
    | .echoFixedVolume cs v d, .echoFixedVolume cs' v' d' =>
      beqComponents n cs cs' && v == v' && d == d'
    | .echoEqualTargetConcentration cs v d mt,
      .echoEqualTargetConcentration cs' v' d' mt' =>
      beqComponents n cs cs' && v == v' && d == d' && mt == mt'
    | .echoFillToVolume cs v d, .echoFillToVolume cs' v' d' =>
      beqComponents n cs cs' && v == v' && d == d'
    | _, _ => false

end

/-- `EchoEqualTargetConcentration.each_volumes`, min/max branches: for each
ratio `x = ref/c`, `round((fixed_volume * x / droplet_volume).m_as("")) *
droplet_volume` (echo.py lines 226-243). -/
def quantScaled (fv dv ref : DQ) : List DQ → Except Err (List DQ)
  | [] => .ok []
  | c :: rest =>
    match DQ.div ref c with
    | .error e => .error e
    | .ok x =>
      match DQ.div (DQ.mul fv x) dv with
      | .error e => .error e
      | .ok q =>
        match DQ.pyRound q with
        | .error e => .error e
        | .ok k =>
          match quantScaled fv dv ref rest with
          | .error e => .error e
          | .ok vs => .ok (DQ.mul (.val (k : ℚ)) dv :: vs)

/-- Modelled from the spec: `FixedConcentration.each_volumes` (actions.py is
not under src/): each component's transfer volume is
`mix_vol * (target / source_concentration)` (§4.1). -/
def fixedConcVols (mixVol target : DQ) : List DQ → Except Err (List DQ)
  | [] => .ok []
  | c :: rest =>
    match DQ.div target c with
    | .error e => .error e
    | .ok r =>
      match fixedConcVols mixVol target rest with
      | .error e => .error e
      | .ok vs => .ok (DQ.mul mixVol r :: vs)

/-- `any(x != sc[0] for x in sc)` (echo.py line 246); on the empty list the
generator never evaluates `sc[0]`, so it is `False`. -/
def anyNeFirst : List DQ → Bool
  | [] => false
  | s0 :: _rest => (s0 :: _rest).any (fun x => DQ.pyNe x s0)

/-- All entries are defined (non-NaN) and equal to the first. -/
def allDefEq : List DQ → Bool
  | [] => true
  | .nan :: _ => false
  | .val q :: rest => rest.all (· == DQ.val q)

/-- `dest_concentration[i] = source_concentration[i] * (each_volume[i] /
mix_vol)` given the zipped lists (common contract, §4.1). -/
def scaleByMixVol (mixVol : DQ) : List (DQ × DQ) → Except Err (List DQ)
  | [] => .ok []
  | (sc, ev) :: rest =>
    match DQ.div ev mixVol with
    | .error e => .error e
    | .ok r =>
      match scaleByMixVol mixVol rest with
      | .error e => .error e
      | .ok ds => .ok (DQ.mul sc r :: ds)

mutual

/-- `AbstractComponent.concentration`: a leaf returns its own concentration;
a `Mix` resolves via `Mix.concentration`. -/
def Component.concentration (fuel : ℕ) (c : Component) : Except Err DQ :=
  match fuel with
  | 0 => .error .fuelOut
  | n + 1 =>
    match c with
    | .leaf _ q => .ok q
    | .mixc m => Mix.concentration n m

/-- `ActionWithComponents.source_concentrations`: each component's
concentration, in order. -/
def sourceConcentrations (fuel : ℕ) (cs : List Component) :
    Except Err (List DQ) :=
  match fuel with
  | 0 => .error .fuelOut
  | n + 1 =>
    match cs with
    | [] => .ok []
    | c :: rest =>
      match Component.concentration n c with
      | .error e => .error e
      | .ok q =>
        match sourceConcentrations n rest with
        | .error e => .error e
        | .ok qs => .ok (q :: qs)

/-- `Mix.concentration` (mixes.py lines 197-220): an explicit fixed quantity
wins; otherwise the destination concentration of the first action's first
component.  (The variant where `fixed_concentration` is a component *name*
goes through the pandas `all_components` table and is not modelled; no
claim touches it.) -/
def Mix.concentration (fuel : ℕ) (m : Mix) : Except Err DQ :=
  match fuel with
  | 0 => .error .fuelOut
  | n + 1 =>
    match m.fixed_concentration with
    | some q => .ok q
    | none =>
      match Mix.total_volume n m with
      | .error e => .error e
      | .ok tv =>
        match m.actions with
        | [] => .error .indexError
        | a :: _ =>
          match MAction.dest_concentrations n a tv m.actions with
          | .error e => .error e
          | .ok [] => .error .indexError
          | .ok (d :: _) => .ok d

/-- `dest_concentrations`: `source_concentrations * (each_volumes /
mix_vol)`.  The echo fixed-volume and equal-target variants call
`each_volumes(mix_vol)` with the *default* empty action tuple (echo.py
lines 122, 217); `EchoFillToVolume` passes the sibling list (line 414);
the plain variants ignore it either way. -/
def MAction.dest_concentrations (fuel : ℕ) (a : MAction) (mixVol : DQ)
    (actions : List MAction) : Except Err (List DQ) :=
  match fuel with
  | 0 => .error .fuelOut
  | n + 1 =>
    match sourceConcentrations n a.components with
    | .error e => .error e
    | .ok sc =>
      let sibs : List MAction :=
        match a with
        | .echoFillToVolume _ _ _ => actions
        | _ => []
      match MAction.each_volumes n a mixVol sibs with
      | .error e => .error e
      | .ok evs => scaleByMixVol mixVol (sc.zip evs)

/-- `each_volumes` of every modelled action variant.

* `fixedVolume`: every component gets the caller-specified volume,
  independent of `mix_vol` (spec §4.1; actions.py not under src/).
* `fixedConcentration`: `mix_vol * (target / source_concentration)`.
* `echoFixedVolume` (echo.py 126-131): the fixed volume for each component.
* `echoEqualTargetConcentration` (echo.py 221-251): quantized scaling
  against the max (`min_volume`) or min (`max_volume`/`max_fill`) source
  concentration; `check` raises when any source concentration compares
  unequal (Python `!=`) to the first and otherwise returns the fixed
  volume for each component.  The trailing `raise ValueError` for an
  unknown method literal is unreachable over the closed `EchoMethod` type.
* `echoFillToVolume` (echo.py 418-441): the target (or the mix volume when
  the target is NaN) minus the other actions' transfer volumes, quantized.
  Python excludes `self` by object identity (`a is not self`); we use
  structural equality `beqAction`, which agrees whenever the sibling list
  holds the action once. -/
def MAction.each_volumes (fuel : ℕ) (a : MAction) (mixVol : DQ)
    (actions : List MAction) : Except Err (List DQ) :=
  match fuel with
  | 0 => .error .fuelOut
  | n + 1 =>
    match a with
    | .fixedVolume comps fv => .ok (List.replicate comps.length fv)
    | .fixedConcentration comps target =>
      match sourceConcentrations n comps with
      | .error e => .error e
      | .ok sc => fixedConcVols mixVol target sc
    | .echoFixedVolume comps fv _ => .ok (List.replicate comps.length fv)
    | .echoEqualTargetConcentration comps fv dv method =>
      match method with
      | .min_volume =>
        match sourceConcentrations n comps with
        | .error e => .error e
        | .ok sc =>
          match pyMax sc with
          | .error e => .error e
          | .ok scmax => quantScaled fv dv scmax sc
      | .max_volume =>
        match sourceConcentrations n comps with
        | .error e => .error e
        | .ok sc =>
          match pyMin sc with
          | .error e => .error e
          | .ok scmin => quantScaled fv dv scmin sc
      | .max_fill _ =>
        match sourceConcentrations n comps with
        | .error e => .error e
        | .ok sc =>
          match pyMin sc with
          | .error e => .error e
          | .ok scmin => quantScaled fv dv scmin sc
      | .check =>
        match sourceConcentrations n comps with
        | .error e => .error e
        | .ok sc =>
          if anyNeFirst sc then .error .concentrationsDiffer
          else .ok (List.replicate comps.length fv)
    | .echoFillToVolume comps ttv dv =>
      match txVolumeSum n
          (actions.filter (fun b => !(beqAction n b a))) mixVol actions with
      | .error e => .error e
      | .ok othervol =>
        if 1 < comps.length then .error .notImplemented
        else
          let tvol := if ttv.isNan then mixVol else ttv
          match DQ.div (DQ.sub tvol othervol) dv with
          | .error e => .error e
          | .ok q =>
            match DQ.pyRound q with
            | .error e => .error e
            | .ok k => .ok [DQ.mul (.val (k : ℚ)) dv]

/-- `AbstractAction.tx_volume`: the sum of `each_volumes` (spec §4.2;
actions.py not under src/). -/
def MAction.tx_volume (fuel : ℕ) (a : MAction) (mixVol : DQ)
    (actions : List MAction) : Except Err DQ :=
  match fuel with
  | 0 => .error .fuelOut
  | n + 1 =>
    match MAction.each_volumes n a mixVol actions with
    | .error e => .error e
    | .ok vs => .ok (DQ.sum vs)

/-- `sum(c.tx_volume(feed, actions) for c in bs)`, left to right, starting
from `0.0 µL`. -/
def txVolumeSum (fuel : ℕ) (bs : List MAction) (mixVol : DQ)
    (actions : List MAction) : Except Err DQ :=
  match fuel with
  | 0 => .error .fuelOut
  | n + 1 =>
    match bs with
    | [] => .ok (.val 0)
    | b :: rest =>
      match MAction.tx_volume n b mixVol actions with
      | .error e => .error e
      | .ok v =>
        match txVolumeSum n rest mixVol actions with
        | .error e => .error e
        | .ok s => .ok (DQ.add v s)

/-- `Mix.total_volume` (mixes.py lines 222-241): the fixed total volume when
it is defined (not NaN), else the sum of the actions' transfer volumes fed
with `fixed_total_volume or Q_(DNAN, uL)` (NaN is truthy, so in the else
branch the NaN itself is fed). -/
def Mix.total_volume (fuel : ℕ) (m : Mix) : Except Err DQ :=
  match fuel with
  | 0 => .error .fuelOut
  | n + 1 =>
    if m.fixed_total_volume.isNan then
      txVolumeSum n m.actions
        (if m.fixed_total_volume.pyTruthy then m.fixed_total_volume else DQ.nan)
        m.actions
    else .ok m.fixed_total_volume

end

/-- `Mix.buffer_volume` (mixes.py lines 243-249): total volume minus the sum
of the actions' transfer volumes at that total volume. -/
def Mix.buffer_volume (fuel : ℕ) (m : Mix) : Except Err DQ :=
  match Mix.total_volume fuel m with
  | .error e => .error e
  | .ok tv =>
    match txVolumeSum fuel m.actions tv m.actions with
    | .error e => .error e
    | .ok s => .ok (DQ.sub tv s)

/-- `Mix.has_fixed_total_volume` (mixes.py line 331). -/
def Mix.has_fixed_total_volume (m : Mix) : Bool := !m.fixed_total_volume.isNan

/-- `Mix.has_fixed_concentration_action` (mixes.py line 328):
`isinstance(action, FixedConcentration)` for some action. -/
def Mix.has_fixed_concentration_action (m : Mix) : Bool :=
  m.actions.any (fun a =>
    match a with
    | .fixedConcentration _ _ => true
    | _ => false)

/-- `MixLine` (printing.py, not under src/), restricted to the fields
`Mix.validate` reads.  Modelled from the spec: a line carries the names it
covers, its total transfer volume and its per-tube transfer volume; for a
single-item line (such as the buffer top-up line, spec §4.2 rule 4) the
per-tube volume is the total. -/
structure MixLine where
  names : List String
  total_tx_vol : Option DQ
  each_tx_vol : DQ
deriving DecidableEq

/-- `_mixlines` of one action.  For the spec-modelled `FixedVolume` the line
carries all component names with the common per-component volume, total
`count * volume` (actions.py not under src/; spec §4.2 "each_volume[i] *
count").  For the other variants one line per component is produced with
that component's volume (echo.py's `_mixlines` merge lines whose
source/destination concentration and volume coincide; the merge only
changes how names are grouped, which no claim observes, and the volumes
are identical).  The echo `_mixlines` pass the sibling list to
`each_volumes` (echo.py lines 147, 267, 450). -/
def actionMixlines (fuel : ℕ) (a : MAction) (mixVol : DQ)
    (actions : List MAction) : Except Err (List MixLine) :=
  match a with
  | .fixedVolume comps fv =>
    .ok [⟨comps.map Component.name, some (DQ.mul (.val comps.length) fv), fv⟩]
  | _ =>
    match MAction.each_volumes fuel a mixVol actions with
    | .error e => .error e
    | .ok evs =>
      .ok ((a.components.zip evs).map
        (fun p => ⟨[p.1.name], some p.2, p.2⟩))

/-- `_mixlines` of a list of actions, concatenated in order. -/
def actionsMixlines (fuel : ℕ) (as : List MAction) (mixVol : DQ)
    (actions : List MAction) : Except Err (List MixLine) :=
  match as with
  | [] => .ok []
  | a :: rest =>
    match actionMixlines fuel a mixVol actions with
    | .error e => .error e
    | .ok ls =>
      match actionsMixlines fuel rest mixVol actions with
      | .error e => .error e
      | .ok more => .ok (ls ++ more)

/-- `Mix.mixlines` (mixes.py lines 314-326): every action's lines against
the resolved total volume, plus — when the total volume is fixed — a
buffer line named by the `buffer_name` *parameter* (default `"Buffer"`,
not `self.buffer_name`). -/
def Mix.mixlines (fuel : ℕ) (m : Mix) (bufferName : String) :
    Except Err (List MixLine) :=
  match Mix.total_volume fuel m with
  | .error e => .error e
  | .ok tv =>
    match actionsMixlines fuel m.actions tv m.actions with
    | .error e => .error e
    | .ok ls =>
      if m.has_fixed_total_volume then
        match Mix.buffer_volume fuel m with
        | .error e => .error e
        | .ok bv => .ok (ls ++ [⟨[bufferName], some bv, bv⟩])
      else .ok ls

/-- A validation finding (`VolumeError`); one constructor per message
produced by `Mix.validate` (mixes.py lines 334-447). -/
inductive Finding where
  | fixedConcentrationNeedsFixedTotal : Finding
  | volumesNotDefined (names : List (List String)) : Finding
  | transferAboveTotal (items : List (List String × DQ)) (total : DQ) : Finding
  | belowMinVolume (mixName : String) (names : List String) (vol : DQ) : Finding
  | negativeBufferVolume (mixName : String) : Finding
  | lastComponentNegative (names : List String) (vol : DQ) : Finding
  | negativeVolumes (items : List (List String × DQ)) : Finding
  | intermediateMixInsufficient (intermediateName mixName : String)
      (needed available : DQ) : Finding
deriving DecidableEq

/-- The per-mixline minimum-volume loop of `Mix.validate` (lines 385-409):
a non-NaN, non-zero per-tube volume below `min_volume` is flagged; the
line whose names equal `[self.buffer_name]` gets the special
negative-buffer message. -/
def minVolumeFindings (m : Mix) (mls : List MixLine) : List Finding :=
  mls.filterMap (fun l =>
    if !l.each_tx_vol.isNan && DQ.pyNe l.each_tx_vol (.val 0)
        && DQ.pyLt l.each_tx_vol m.min_volume then
      if l.names == [m.buffer_name] then some (.negativeBufferVolume m.name)
      else some (.belowMinVolume m.name l.names l.each_tx_vol)
    else none)

/-- The intermediate-mix inventory loop of `Mix.validate` (lines 430-446):
for every action, zip its components with its `each_volumes` at the
resolved total volume; a component that is itself a `Mix` whose
`fixed_total_volume` is less than the drawn volume is flagged. -/
def intermediateFindings (fuel : ℕ) (m : Mix) (tv : DQ) :
    List MAction → Except Err (List Finding)
  | [] => .ok []
  | a :: rest =>
    match MAction.each_volumes fuel a tv m.actions with
    | .error e => .error e
    | .ok evs =>
      match intermediateFindings fuel m tv rest with
      | .error e => .error e
      | .ok more =>
        .ok (((a.components.zip evs).filterMap (fun p =>
          match p.1 with
          | .mixc im =>
            if DQ.pyLt im.fixed_total_volume p.2 then
              some (.intermediateMixInsufficient im.name m.name p.2
                im.fixed_total_volume)
            else none
          | _ => none)) ++ more)

/-- `Mix.validate` (mixes.py lines 334-447), with `mixlines` computed as the
`tablefmt` path does (so with buffer name `"Buffer"`).  The checks run in
source order and accumulate every finding; `ntx[-1]` on an empty `ntx`
raises `IndexError`.  The unused `raise_errors` parameter is dropped. -/
def Mix.validate (fuel : ℕ) (m : Mix) : Except Err (List Finding) :=
  match Mix.mixlines fuel m "Buffer" with
  | .error e => .error e
  | .ok mls =>
    let ntx : List (List String × DQ) :=
      mls.filterMap (fun l => l.total_tx_vol.map (fun v => (l.names, v)))
    let e1 : List Finding :=
      if !m.has_fixed_total_volume && m.has_fixed_concentration_action then
        [.fixedConcentrationNeedsFixedTotal]
      else []
    let nanVols := (ntx.filter (fun p => p.2.isNan)).map (fun p => p.1)
    let e2 : List Finding :=
      if nanVols.isEmpty then [] else [.volumesNotDefined nanVols]
    match Mix.total_volume fuel m with
    | .error e => .error e
    | .ok tv =>
      let highVols := ntx.filter (fun p => DQ.pyLt tv p.2)
      let e3 : List Finding :=
        if highVols.isEmpty then [] else [.transferAboveTotal highVols tv]
      let e4 := minVolumeFindings m mls
      match ntx.getLast? with
      | none => .error .indexError
      | some lastP =>
        let e5 : List Finding :=
          if DQ.pyLt lastP.2 (.val 0) then
            [.lastComponentNegative lastP.1 lastP.2]
          else []
        let negVols := ntx.filter (fun p => DQ.pyLt p.2 (.val 0))
        let e6 : List Finding :=
          if negVols.isEmpty then [] else [.negativeVolumes negVols]
        match intermediateFindings fuel m tv m.actions with
        | .error e => .error e
        | .ok e7 => .ok (e1 ++ e2 ++ e3 ++ e4 ++ e5 ++ e6 ++ e7)

/-- The checked `Mix` constructor (`Mix.__attrs_post_init__`, mixes.py lines
176-188): an empty action list is a hard error.  (The `reference is not
None` auto-reconciliation is skipped: we model construction without a
reference bound.) -/
def mkMix (actions : List MAction) (name : String) (fixed_total_volume : DQ)
    (fixed_concentration : Option DQ) (buffer_name : String)
    (min_volume : DQ) : Except Err Mix :=
  if actions.isEmpty then .error .emptyActions
  else .ok (.mk actions name fixed_total_volume fixed_concentration
    buffer_name min_volume)

/-- The action replacement `split_mix` performs (mixes.py lines 1213-1226):
every `FixedVolume` action's volume is multiplied by the volume
multiplier; every other action is kept as-is (`EchoFixedVolume` is *not* a
`FixedVolume` subclass, echo.py line 97). -/
def scaleFixedVolumeAction (mult : ℚ) : MAction → MAction
  | .fixedVolume comps fv => .fixedVolume comps (DQ.mul fv (.val mult))
  | a => a

/-- The exact rational value of the Python float literal `0.05`
(`3602879701896397 * 2 ** -56`), which is what `Decimal(excess)` produces
when `split_mix` is called with `excess=0.05` (mixes.py line 1170 converts
a float with `Decimal(excess)`, which is exact). -/
def floatV05 : ℚ := 3602879701896397 / 72057594037927936

/-- `split_mix` (mixes.py lines 1123-1239).  `excess` is the already
Decimal-converted excess fraction.  `volume_multiplier = num_tubes * (1 +
excess)`; `large_volume = mix.total_volume * volume_multiplier` (computed
from `total_volume`, *before* the actions are replaced); the derived mix
always receives `fixed_total_volume = large_volume` because
`mix.fixed_total_volume` is a `Quantity` (possibly NaN) and never `None`,
so the `if mix.fixed_total_volume is not None` guard is always true.  The
`SplitMix` subclass only overrides instruction rendering, which is not
modelled. -/
def split_mix (fuel : ℕ) (mix : Mix) (num_tubes : ℕ) (excess : ℚ) :
    Except Err Mix :=
  let volume_multiplier : ℚ := num_tubes * (1 + excess)
  match Mix.total_volume fuel mix with
  | .error e => .error e
  | .ok tv =>
    let large_volume := DQ.mul tv (.val volume_multiplier)
    mkMix (mix.actions.map (scaleFixedVolumeAction volume_multiplier))
      mix.name large_volume mix.fixed_concentration mix.buffer_name
      mix.min_volume

/-- µL magnitude to nL magnitude (`m_as("nL")`), exact. -/
def DQ.toNL : DQ → DQ
  | .nan => DQ.nan
  | .val q => .val (1000 * q)

/-- `_check_volume` of `EchoFixedVolume` and
`EchoEqualTargetConcentration` (echo.py lines 105-112 and 200-207): the
fixed volume in nL modulo the droplet volume in nL must be exactly zero,
else `ValueError`.  A NaN fixed or droplet volume also fails (NaN % x is
NaN and `NaN != 0` is true). -/
def checkDropletMultiple (fixed_volume droplet_volume : DQ) :
    Except Err Unit :=
  match DQ.pyMod fixed_volume.toNL droplet_volume.toNL with
  | .error e => .error e
  | .ok r =>
    if DQ.pyNe r (.val 0) then .error .volumeNotDropletMultiple
    else .ok ()

/-- Modelled from the spec: construction of an `EchoFixedVolume` runs its
`_check_volume` (spec §4.1/§7 "checked at construction, not at use"; the
attrs machinery that invokes it lives in actions.py, which is not under
src/).  The check itself is echo.py lines 105-112. -/
def mkEchoFixedVolume (components : List Component)
    (fixed_volume droplet_volume : DQ) : Except Err MAction :=
  match checkDropletMultiple fixed_volume droplet_volume with
  | .error e => .error e
  | .ok _ => .ok (.echoFixedVolume components fixed_volume droplet_volume)

/-- Modelled from the spec: construction of an
`EchoEqualTargetConcentration` runs its `_check_volume` (echo.py lines
200-207), as for `mkEchoFixedVolume`. -/
def mkEchoEqualTargetConcentration (components : List Component)
    (fixed_volume droplet_volume : DQ) (method : EchoMethod) :
    Except Err MAction :=
  match checkDropletMultiple fixed_volume droplet_volume with
  | .error e => .error e
  | .ok _ => .ok (.echoEqualTargetConcentration components fixed_volume
      droplet_volume method)

/-- Construction of an `EchoFillToVolume` (echo.py lines 398-403): the
class defines *no* `_check_volume`, so no droplet-multiple check runs on
`target_total_volume`, at construction or anywhere else. -/
def mkEchoFillToVolume (components : List Component)
    (target_total_volume droplet_volume : DQ) : Except Err MAction :=
  .ok (.echoFillToVolume components target_total_volume droplet_volume)

/-- `Strand` (components.py lines 276-365): name, concentration (nM),
plate (empty string = unset), optional well and optional sequence.  A
sequence is a list of characters (Python `str`). -/
structure Strand where
  name : String
  concentration : DQ
  plate : String
  well : Option String
  sequence : Option (List Char)
deriving DecidableEq

/-- One row of the reference table, as `Strand.with_reference` reads it:
`Name`, `Concentration (nM)`, `Plate`, `Well`, `Sequence`. -/
structure RefRow where
  name : String
  conc : DQ
  plate : String
  well : Option String
  sequence : Option (List Char)
deriving DecidableEq

/-- `s.replace(" ", "").replace("-", "")` (components.py lines 316-317). -/
def stripSeq (s : List Char) : List Char :=
  s.filter (fun c => !(c == ' ' || c == '-'))

/-- Result of the row loop in `Strand.with_reference`: the mismatched rows,
the matched rows (in order), and the final state of the receiver (whose
`sequence` the loop mutates in place).  (Python records the offending
field alongside each mismatch; only emptiness and the rows matter.) -/
structure RefLoopRes where
  mismatched : List RefRow
  matched : List RefRow
  final : Strand
deriving DecidableEq

/-- The row loop of `Strand.with_reference` (components.py lines 296-322):
each candidate row is checked against concentration (skipped when the
strand's is NaN), plate (skipped when unset), well (skipped when unset)
and sequence.  When both the receiver and the row carry a string
sequence, the receiver's `sequence` is overwritten with its stripped form
*before* the comparison — this is the in-place mutation the loop performs
even when `inplace=False`. -/
def strandLoop (cur : Strand) : List RefRow → RefLoopRes
  | [] => ⟨[], [], cur⟩
  | r :: rest =>
    if !cur.concentration.isNan && !(DQ.pyEq r.conc cur.concentration) then
      let res := strandLoop cur rest
      { res with mismatched := r :: res.mismatched }
    else if cur.plate != "" && r.plate != cur.plate then
      let res := strandLoop cur rest
      { res with mismatched := r :: res.mismatched }
    else if cur.well.isSome && cur.well != r.well then
      let res := strandLoop cur rest
      { res with mismatched := r :: res.mismatched }
    else
      match cur.sequence, r.sequence with
      | some ss, some rs =>
        let cur' := { cur with sequence := some (stripSeq ss) }
        if stripSeq ss != stripSeq rs then
          let res := strandLoop cur' rest
          { res with mismatched := r :: res.mismatched }
        else
          let res := strandLoop cur' rest
          { res with matched := r :: res.matched }
      | _, _ =>
        let res := strandLoop cur rest
        { res with matched := r :: res.matched }

/-- The sequence merge after a match (components.py lines 341-349): keep
the receiver's (possibly stripped) sequence when the row has none or an
empty one; otherwise take the row's. -/
def mergeSeq : Option (List Char) → Option (List Char) → Option (List Char)
  | none, none => none
  | some s, none => some s
  | some s, some ms => if ms = [] then some s else some ms
  | none, some ms => some ms

/-- `Strand.with_reference` (components.py lines 282-365), with the
reference table as a row list.  Returns `(returned strand, receiver final
state)` — the receiver state is what the Python `self` looks like after
the call.  No matching name (`KeyError`) returns the receiver unchanged;
only mismatched candidates raises `ValueError`; otherwise the first match
is merged.  With `inplace=False` a fresh strand is returned via
`attrs.evolve`, but the receiver keeps the sequence mutation done by the
row loop. -/
def Strand.with_reference (s : Strand) (rows : List RefRow)
    (inplace : Bool) : Except Err (Strand × Strand) :=
  let ref_comps := rows.filter (fun r => r.name == s.name)
  if ref_comps.isEmpty then .ok (s, s)
  else
    let res := strandLoop s ref_comps
    if res.matched.isEmpty && !res.mismatched.isEmpty then
      .error .mismatchedReferences
    else
      match res.matched with
      | [] => .error .indexError
      | m :: _ =>
        let seq := mergeSeq res.final.sequence m.sequence
        if inplace then
          let s' : Strand :=
            { res.final with
              concentration := m.conc, plate := m.plate,
              well := m.well, sequence := seq }
          .ok (s', s')
        else
          let ret : Strand :=
            { name := res.final.name, concentration := m.conc,
              plate := m.plate, well := m.well, sequence := seq }
          .ok (ret, res.final)

/-- The fixed volume of a mix's first action, when that action is a
`FixedVolume`. -/
def firstActionFixedVolume (m : Mix) : Option DQ :=
  match m.actions with
  | .fixedVolume _ fv :: _ => some fv
  | _ => none

/-- Scenario mix of spec §8 / claim C3: two fixed-volume actions of 5 µL
and 10 µL with one component apiece, `fixed_total_volume` 12 µL, default
buffer name and default `min_volume` 0.5 µL. -/
def scenarioMix12 : Mix := .mk
  [.fixedVolume [.leaf "A" (.val 100)] (.val 5),
   .fixedVolume [.leaf "B" (.val 100)] (.val 10)]
  "M" (.val 12) none "Buffer" (.val (1/2))

/-- A nested mix holding only 1 µL (`fixed_total_volume` 1 µL). -/
def innerSmallMix : Mix := .mk
  [.fixedVolume [.leaf "X" (.val 100)] (.val 1)]
  "Inner" (.val 1) none "Buffer" (.val (1/2))

/-- Claim C2's two-fault mix: a 0.1 µL transfer (below the default 0.5 µL
`min_volume`) and a 2 µL draw from `innerSmallMix`, which holds only 1 µL;
total volume fixed at 12 µL so nothing else is wrong. -/
def twoFaultMix : Mix := .mk
  [.fixedVolume [.leaf "A" (.val 100)] (.val (1/10)),
   .fixedVolume [.mixc innerSmallMix] (.val 2)]
  "Outer" (.val 12) none "Buffer" (.val (1/2))

/-- A mix whose only action is an equal-target-concentration check action
over sources at 100 nM and 200 nM; computing its volumes raises. -/
def checkFaultMix : Mix := .mk
  [.echoEqualTargetConcentration
    [.leaf "A" (.val 100), .leaf "B" (.val 200)]
    (.val 1) (.val (1/40)) .check]
  "E" (.val 10) none "Buffer" (.val (1/2))

/-- Claim C6's template mix: a single fixed-volume action transferring 1 µL
of its one component. -/
def splitTemplate : Mix := .mk
  [.fixedVolume [.leaf "A" (.val 100)] (.val 1)]
  "T" (.val 12) none "Buffer" (.val (1/2))

/-- Claim C7's template: like `splitTemplate` but without a fixed total
volume (the NaN sentinel). -/
def splitTemplateNoTotal : Mix := .mk
  [.fixedVolume [.leaf "A" (.val 100)] (.val 1)]
  "T" DQ.nan none "Buffer" (.val (1/2))

/-- Claim C8's counterexample action: a `check` equal-target-concentration
action over two components whose concentrations are both undefined. -/
def checkNanAction : MAction := .echoEqualTargetConcentration
  [.leaf "A" DQ.nan, .leaf "B" DQ.nan] (.val 1) (.val (1/40)) .check

/-- Claim C10's receiver: a strand with no concentration, plate or well and
with sequence `"A C"`. -/
def strandA : Strand := ⟨"s1", DQ.nan, "", none, some ['A', ' ', 'C']⟩

/-- Claim C10's reference row: matches `strandA` by name, carries 100 nM,
a location and the sequence `"AC"`. -/
def refRowA : RefRow := ⟨"s1", .val 100, "P1", some "A1", some ['A', 'C']⟩

/-- The `split_mix` result on `splitTemplate` with `num_tubes = 10` and
exact excess `1/20`, written out. -/
def splitDerived : Mix := .mk
  [.fixedVolume [.leaf "A" (.val 100)]
    (DQ.mul (.val 1) (.val (((10 : ℕ) : ℚ) * (1 + 1/20))))]
  "T" (DQ.mul (.val 12) (.val (((10 : ℕ) : ℚ) * (1 + 1/20))))
  none "Buffer" (.val (1/2))

/-- When `Mix.total_volume` succeeds and the fixed total volume is defined,
the result is exactly that fixed value. -/
theorem total_volume_ok_defined (fuel : ℕ) (m : Mix) (tv : DQ)
    (h : Mix.total_volume fuel m = .ok tv)
    (hd : m.fixed_total_volume.isNan = false) :
    tv = m.fixed_total_volume := by
  cases fuel with
  | zero => simp [Mix.total_volume] at h
  | succ n =>
    simp [Mix.total_volume, hd] at h
    exact h.symm

/-- Claim C1: for every Mix whose `fixed_total_volume` is defined (not the
NaN sentinel), `total_volume` returns exactly that fixed value, regardless
of the actions the mix contains (any positive evaluation fuel). -/
theorem total_volume_returns_fixed (fuel : ℕ) (m : Mix)
    (h : m.fixed_total_volume.isNan = false) :
    Mix.total_volume (fuel + 1) m = .ok m.fixed_total_volume := by
  simp [Mix.total_volume, h]

/-- Witness for `total_volume_returns_fixed` at the concrete scenario mix. -/
theorem total_volume_returns_fixed_witness :
    Mix.total_volume 1 scenarioMix12 = .ok (.val 12) := by
  have h := total_volume_returns_fixed 0 scenarioMix12 (by decide)
  simpa using h

/-- Counterexample to claim C2's "validate never raises" half: a mix whose
only action is an equal-target-concentration `check` action over 100 nM
and 200 nM sources; computing its volumes raises `ValueError` inside
`mixlines`, and `Mix.validate` propagates it instead of returning a
finding list. -/
theorem validate_propagates_check_exception :
    Mix.validate 100 checkFaultMix = .error .concentrationsDiffer := by decide

/-- Claim C2, amended: when every action's volumes compute, `validate`
returns the complete finding list; the two-fault mix (one sub-minimum
0.1 µL transfer, one 2 µL draw from a nested mix that holds only 1 µL)
yields exactly two findings, one of the sub-minimum category and one of
the intermediate-mix-inventory category. -/
theorem validate_two_fault_findings :
    Mix.validate 100 twoFaultMix = .ok
      [.belowMinVolume "Outer" ["A"] (.val (1/10)),
       .intermediateMixInsufficient "Inner" "Outer" (.val 2) (.val 1)] ∧
    (Mix.validate 100 twoFaultMix).map List.length = .ok 2 := by
  exact ⟨by decide, by decide⟩

/-- Counterexample to claim C3: on the 12 µL scenario mix, `validate`
returns three findings, not exactly one. -/
theorem scenario12_not_single_finding :
    Mix.buffer_volume 100 scenarioMix12 = .ok (.val (-3)) ∧
    (Mix.validate 100 scenarioMix12).map List.length = .ok 3 := by
  exact ⟨by decide, by decide⟩

/-- Claim C3, amended: for the scenario mix (5 µL and 10 µL fixed-volume
actions, `fixed_total_volume` 12 µL), `buffer_volume` is −3 µL and
`validate` returns exactly three findings, each citing the negative
buffer line: the special negative-buffer message from the minimum-volume
check, the negative last line, and the negative-volumes summary. -/
theorem scenario12_findings :
    Mix.buffer_volume 100 scenarioMix12 = .ok (.val (-3)) ∧
    Mix.validate 100 scenarioMix12 = .ok
      [.negativeBufferVolume "M",
       .lastComponentNegative ["Buffer"] (.val (-3)),
       .negativeVolumes [(["Buffer"], .val (-3))]] := by
  exact ⟨by decide, by decide⟩

/-- Counterexample to claim C6: with `excess = 0.05` given as a Python
float, `Decimal(excess)` is the exact binary value `floatV05`, so the
derived action's transfer volume is `10 * (1 + floatV05)` µL, which is
not 10.5 µL. -/
theorem split_mix_float_excess_not_exact :
    (split_mix 100 splitTemplate 10 floatV05).map firstActionFixedVolume
      = .ok (some (.val (10 * (1 + floatV05)))) ∧
    (10 * (1 + floatV05) : ℚ) ≠ 21/2 := by
  exact ⟨by decide, by decide⟩

/-- Claim C6, amended: `split_mix` with `num_tubes = 10` on the 1 µL
fixed-volume template transfers `1 µL * 10 * (1 + Decimal(excess))`; with
the float `0.05` that is the near-10.5 binary artifact, and the exact
10.5 µL of the claim requires the exact excess `1/20`
(`Decimal("0.05")`). -/
theorem split_mix_scaled_transfer :
    (split_mix 100 splitTemplate 10 floatV05).map firstActionFixedVolume
      = .ok (some (.val (10 * (1 + floatV05)))) ∧
    (split_mix 100 splitTemplate 10 (1/20)).map firstActionFixedVolume
      = .ok (some (.val (21/2))) := by
  exact ⟨by decide, by decide⟩

/-- Claim C9: constructing a Mix with an empty action list is a hard
error, and every successfully constructed Mix has a nonempty action
list. -/
theorem mix_requires_nonempty_actions :
    (∀ name ftv fc bn mv, mkMix [] name ftv fc bn mv = .error .emptyActions) ∧
    (∀ acts name ftv fc bn mv m, mkMix acts name ftv fc bn mv = .ok m →
      acts ≠ [] ∧ m.actions = acts) := by
  constructor
  · intro name ftv fc bn mv; rfl
  · intro acts name ftv fc bn mv m h
    cases acts with
    | nil => simp [mkMix] at h
    | cons a rest =>
      simp only [mkMix, List.isEmpty_cons, if_false, Bool.false_eq_true,
        reduceIte] at h
      cases h
      exact ⟨List.cons_ne_nil a rest, rfl⟩

/-- Witness for `mix_requires_nonempty_actions`. -/
theorem mix_requires_nonempty_actions_witness :
    mkMix [] "W" DQ.nan none "Buffer" (.val (1/2)) = .error .emptyActions ∧
    ([MAction.fixedVolume [] (.val 1)] ≠ ([] : List MAction)) := by
  constructor
  · exact mix_requires_nonempty_actions.1 "W" DQ.nan none "Buffer" (.val (1/2))
  · exact (mix_requires_nonempty_actions.2 [.fixedVolume [] (.val 1)] "W"
      DQ.nan none "Buffer" (.val (1/2)) _ rfl).1

/-- Counterexample to claim C7: a template *without* a fixed total volume
(the NaN sentinel) yields a derived mix *with* one — 10.5 µL here —
because `mix.fixed_total_volume is not None` is always true (the field is
a NaN quantity, never `None`) and `split_mix` scales `total_volume`, the
derived sum of action volumes. -/
theorem split_mix_creates_fixed_total :
    splitTemplateNoTotal.fixed_total_volume.isNan = true ∧
    (split_mix 100 splitTemplateNoTotal 10 (1/20)).map Mix.fixed_total_volume
      = .ok (.val (21/2)) ∧
    (DQ.val (21/2)).isNan = false := by
  exact ⟨by decide, by decide, by decide⟩

/-- Claim C7, amended: a successful `split_mix` scales every fixed-volume
action by `num_tubes * (1 + excess)`, preserves every other action
unchanged, and always sets the derived mix's fixed total volume to the
template's *total volume* times that multiplier — which equals the
template's fixed total volume times the multiplier when the template has
one, and is a freshly fixed (defined) total when the template derives its
total from its actions. -/
theorem split_mix_behavior (fuel : ℕ) (mix : Mix) (num_tubes : ℕ) (e : ℚ)
    (m' : Mix) (h : split_mix fuel mix num_tubes e = .ok m') :
    m'.actions = mix.actions.map
      (scaleFixedVolumeAction ((num_tubes : ℚ) * (1 + e))) ∧
    (∃ tv, Mix.total_volume fuel mix = .ok tv ∧
      m'.fixed_total_volume = DQ.mul tv (.val ((num_tubes : ℚ) * (1 + e)))) ∧
    (mix.fixed_total_volume.isNan = false →
      m'.fixed_total_volume
        = DQ.mul mix.fixed_total_volume (.val ((num_tubes : ℚ) * (1 + e)))) := by
  unfold split_mix at h
  cases htv : Mix.total_volume fuel mix with
  | error err => rw [htv] at h; cases h
  | ok tv =>
    rw [htv] at h
    unfold mkMix at h
    dsimp only at h
    by_cases hemp : (mix.actions.map
        (scaleFixedVolumeAction ((num_tubes : ℚ) * (1 + e)))).isEmpty = true
    · rw [if_pos hemp] at h; cases h
    · rw [if_neg hemp] at h
      cases h
      refine ⟨rfl, ⟨tv, rfl, rfl⟩, ?_⟩
      intro hd
      rw [total_volume_ok_defined fuel mix tv htv hd]
      rfl

/-- Witness for `split_mix_behavior` at the fixed-total template. -/
theorem split_mix_behavior_witness :
    splitDerived.actions = splitTemplate.actions.map
      (scaleFixedVolumeAction (((10 : ℕ) : ℚ) * (1 + 1/20))) ∧
    (∃ tv, Mix.total_volume 2 splitTemplate = .ok tv ∧
      splitDerived.fixed_total_volume
        = DQ.mul tv (.val (((10 : ℕ) : ℚ) * (1 + 1/20)))) ∧
    (splitTemplate.fixed_total_volume.isNan = false →
      splitDerived.fixed_total_volume
        = DQ.mul splitTemplate.fixed_total_volume
            (.val (((10 : ℕ) : ℚ) * (1 + 1/20)))) :=
  split_mix_behavior 2 splitTemplate 10 (1/20) splitDerived rfl

/-- For nonzero `b`, the truncated-division remainder of `a` by `b` is zero
exactly when `a` is an integer multiple of `b`. -/
theorem sub_trunc_mul_eq_zero_iff (a b : ℚ) (hb : b ≠ 0) :
    a - b * (DQ.ratTrunc (a / b) : ℚ) = 0 ↔ ∃ k : ℤ, a = (k : ℚ) * b := by
  constructor
  · intro h
    exact ⟨DQ.ratTrunc (a / b), by linarith⟩
  · rintro ⟨k, rfl⟩
    have hq : ((k : ℚ) * b) / b = (k : ℚ) := by field_simp
    rw [hq]
    unfold DQ.ratTrunc
    split
    · rw [Int.ceil_intCast]; ring
    · rw [Int.floor_intCast]; ring

/-- `_check_volume` succeeds on defined volumes with a nonzero droplet
volume precisely when the fixed volume is an integer multiple of the
droplet volume. -/
theorem checkDropletMultiple_ok_iff (f d : ℚ) (hd : d ≠ 0) :
    exOk (checkDropletMultiple (.val f) (.val d)) = true
      ↔ ∃ k : ℤ, f = (k : ℚ) * d := by
  have h1000 : (1000 : ℚ) * d ≠ 0 := mul_ne_zero (by norm_num) hd
  have hratio : (1000 * f) / (1000 * d) = f / d :=
    mul_div_mul_left f d (by norm_num)
  have hmod : DQ.pyMod (DQ.toNL (.val f)) (DQ.toNL (.val d))
      = .ok (.val (1000 * f - 1000 * d * DQ.ratTrunc (f / d))) := by
    simp [DQ.pyMod, DQ.toNL, h1000, hratio]
  have hfac : 1000 * f - 1000 * d * (DQ.ratTrunc (f / d) : ℚ)
      = 1000 * (f - d * (DQ.ratTrunc (f / d) : ℚ)) := by ring
  unfold checkDropletMultiple
  rw [hmod]
  by_cases hz : f - d * (DQ.ratTrunc (f / d) : ℚ) = 0
  · have : (1000 : ℚ) * f - 1000 * d * DQ.ratTrunc (f / d) = 0 := by
      rw [hfac, hz, mul_zero]
    simp [DQ.pyNe, DQ.pyEq, this, exOk]
    exact (sub_trunc_mul_eq_zero_iff f d hd).mp hz
  · have : ¬((1000 : ℚ) * f - 1000 * d * DQ.ratTrunc (f / d) = 0) := by
      rw [hfac]
      exact fun hc => hz (by linarith)
    simp [DQ.pyNe, DQ.pyEq, this, exOk]
    exact fun k hk => hz ((sub_trunc_mul_eq_zero_iff f d hd).mpr ⟨k, hk⟩)

/-- A successful `_check_volume` forces both volumes to be defined, the
droplet volume nonzero, and the fixed volume an integer multiple of it. -/
theorem checkDropletMultiple_ok_shape (fv dv : DQ)
    (h : checkDropletMultiple fv dv = .ok ()) :
    ∃ (f d : ℚ) (k : ℤ), fv = .val f ∧ dv = .val d ∧ d ≠ 0
      ∧ f = (k : ℚ) * d := by
  cases fv with
  | nan =>
    exfalso
    simp [checkDropletMultiple, DQ.toNL, DQ.pyMod, DQ.pyNe, DQ.pyEq] at h
  | val f =>
    cases dv with
    | nan =>
      exfalso
      simp [checkDropletMultiple, DQ.toNL, DQ.pyMod, DQ.pyNe, DQ.pyEq] at h
    | val d =>
      by_cases hd : d = 0
      · exfalso
        subst hd
        simp [checkDropletMultiple, DQ.toNL, DQ.pyMod] at h
      · have hok : exOk (checkDropletMultiple (.val f) (.val d)) = true := by
          rw [h]; rfl
        obtain ⟨k, hk⟩ := (checkDropletMultiple_ok_iff f d hd).mp hok
        exact ⟨f, d, k, rfl, rfl, hd, hk⟩

/-- Counterexample to claim C5: an `EchoFillToVolume` is constructed with
a target volume (10.01 µL) that is not an integer multiple of the 25 nL
droplet volume, yet neither construction nor `each_volumes` raises — the
class defines no `_check_volume`. -/
theorem fill_to_volume_target_unchecked :
    exOk (mkEchoFillToVolume [.leaf "A" (.val 100)] (.val (1001/100))
      (.val (1/40))) = true ∧
    MAction.each_volumes 100
      (.echoFillToVolume [.leaf "A" (.val 100)] (.val (1001/100)) (.val (1/40)))
      (.val 20)
      [.echoFillToVolume [.leaf "A" (.val 100)] (.val (1001/100)) (.val (1/40))]
      = .ok [.val 10] ∧
    ¬ ∃ k : ℤ, (1001/100 : ℚ) = (k : ℚ) * (1/40) := by
  refine ⟨rfl, by decide, ?_⟩
  rintro ⟨k, hk⟩
  have h5 : (k : ℚ) * 5 = 2002 := by
    field_simp at hk
    linarith
  have hz : (k * 5 : ℤ) = 2002 := by exact_mod_cast h5
  omega

/-- Claim C5, amended: for `EchoFixedVolume` and
`EchoEqualTargetConcentration` (the quantized actions that define
`_check_volume`), construction succeeds precisely when the fixed volume is
an exact integer multiple of the (defined, nonzero) droplet volume, and
`EchoFixedVolume.each_volumes` performs no check at use.
(`EchoFillToVolume`'s target volume is never checked; see the
counterexample.) -/
theorem droplet_check_at_construction :
    (∀ comps (f d : ℚ), d ≠ 0 →
      (exOk (mkEchoFixedVolume comps (.val f) (.val d)) = true
        ↔ ∃ k : ℤ, f = (k : ℚ) * d)) ∧
    (∀ comps (f d : ℚ) (method : EchoMethod), d ≠ 0 →
      (exOk (mkEchoEqualTargetConcentration comps (.val f) (.val d) method)
          = true
        ↔ ∃ k : ℤ, f = (k : ℚ) * d)) ∧
    (∀ comps fv dv (fuel : ℕ) (v : DQ) (acts : List MAction),
      MAction.each_volumes (fuel + 1) (.echoFixedVolume comps fv dv) v acts
        = .ok (List.replicate comps.length fv)) := by
  refine ⟨?_, ?_, ?_⟩
  · intro comps f d hd
    rw [← checkDropletMultiple_ok_iff f d hd]
    unfold mkEchoFixedVolume
    cases checkDropletMultiple (.val f) (.val d) <;> simp [exOk]
  · intro comps f d method hd
    rw [← checkDropletMultiple_ok_iff f d hd]
    unfold mkEchoEqualTargetConcentration
    cases checkDropletMultiple (.val f) (.val d) <;> simp [exOk]
  · intro comps fv dv fuel v acts
    simp [MAction.each_volumes]

/-- Witness for `droplet_check_at_construction`: 1 µL and a 25 nL droplet
volume. -/
theorem droplet_check_at_construction_witness :
    exOk (mkEchoFixedVolume [] (.val 1) (.val (1/40))) = true
      ↔ ∃ k : ℤ, (1 : ℚ) = (k : ℚ) * (1/40) :=
  droplet_check_at_construction.1 [] 1 (1/40) (by norm_num)

/-- Every volume produced by the min/max quantized scaling is an integer
multiple of the droplet volume. -/
theorem quantScaled_multiple (fv ref : DQ) (d : ℚ) :
    ∀ (sc vs : List DQ), quantScaled fv (.val d) ref sc = .ok vs →
      ∀ x ∈ vs, ∃ k : ℤ, x = .val ((k : ℚ) * d) := by
  intro sc
  induction sc with
  | nil =>
    intro vs h x hx
    simp [quantScaled] at h
    subst h
    cases hx
  | cons c rest ih =>
    intro vs h x hx
    unfold quantScaled at h
    cases hdiv : DQ.div ref c with
    | error e => rw [hdiv] at h; dsimp only at h; cases h
    | ok r =>
      rw [hdiv] at h
      dsimp only at h
      cases hq : DQ.div (DQ.mul fv r) (.val d) with
      | error e => rw [hq] at h; dsimp only at h; cases h
      | ok q =>
        rw [hq] at h
        dsimp only at h
        cases hr : DQ.pyRound q with
        | error e => rw [hr] at h; dsimp only at h; cases h
        | ok k =>
          rw [hr] at h
          dsimp only at h
          cases hrest : quantScaled fv (.val d) ref rest with
          | error e => rw [hrest] at h; dsimp only at h; cases h
          | ok vs' =>
            rw [hrest] at h
            dsimp only at h
            cases h
            cases hx with
            | head => exact ⟨k, rfl⟩
            | tail _ hmem => exact ih vs' hrest x hmem

/-- An `EchoFixedVolume` that construction accepts is the expected term,
with defined volumes, nonzero droplet volume and a multiple fixed
volume. -/
theorem mkEchoFixedVolume_ok_shape (comps : List Component) (fv dv : DQ)
    (a : MAction) (h : mkEchoFixedVolume comps fv dv = .ok a) :
    a = .echoFixedVolume comps fv dv ∧
    ∃ (f d : ℚ) (k : ℤ), fv = .val f ∧ dv = .val d ∧ d ≠ 0
      ∧ f = (k : ℚ) * d := by
  unfold mkEchoFixedVolume at h
  cases hc : checkDropletMultiple fv dv with
  | error e => rw [hc] at h; cases h
  | ok u =>
    cases u
    rw [hc] at h
    cases h
    exact ⟨rfl, checkDropletMultiple_ok_shape fv dv hc⟩

/-- As `mkEchoFixedVolume_ok_shape`, for
`EchoEqualTargetConcentration`. -/
theorem mkEchoEqualTarget_ok_shape (comps : List Component) (fv dv : DQ)
    (method : EchoMethod) (a : MAction)
    (h : mkEchoEqualTargetConcentration comps fv dv method = .ok a) :
    a = .echoEqualTargetConcentration comps fv dv method ∧
    ∃ (f d : ℚ) (k : ℤ), fv = .val f ∧ dv = .val d ∧ d ≠ 0
      ∧ f = (k : ℚ) * d := by
  unfold mkEchoEqualTargetConcentration at h
  cases hc : checkDropletMultiple fv dv with
  | error e => rw [hc] at h; cases h
  | ok u =>
    cases u
    rw [hc] at h
    cases h
    exact ⟨rfl, checkDropletMultiple_ok_shape fv dv hc⟩

/-- Claim C4: every volume returned by `each_volumes` of a quantized
(Echo) action is an exact integer multiple of the configured droplet
volume: for `EchoFixedVolume` and `EchoEqualTargetConcentration` under
their construction check, and for `EchoFillToVolume` whenever its droplet
volume is defined. -/
theorem echo_volumes_droplet_multiples :
    (∀ comps fv dv a, mkEchoFixedVolume comps fv dv = .ok a →
      ∀ fuel v acts vs, MAction.each_volumes fuel a v acts = .ok vs →
        ∃ d : ℚ, dv = .val d ∧ ∀ x ∈ vs, ∃ k : ℤ, x = .val ((k : ℚ) * d)) ∧
    (∀ comps fv dv method a,
      mkEchoEqualTargetConcentration comps fv dv method = .ok a →
      ∀ fuel v acts vs, MAction.each_volumes fuel a v acts = .ok vs →
        ∃ d : ℚ, dv = .val d ∧ ∀ x ∈ vs, ∃ k : ℤ, x = .val ((k : ℚ) * d)) ∧
    (∀ comps ttv (d : ℚ) fuel v acts vs,
      MAction.each_volumes fuel (.echoFillToVolume comps ttv (.val d)) v acts
        = .ok vs → ∀ x ∈ vs, ∃ k : ℤ, x = .val ((k : ℚ) * d)) := by
  refine ⟨?_, ?_, ?_⟩
  · intro comps fv dv a hmk fuel v acts vs h
    obtain ⟨ha, f, d, k0, hf, hd, hdz, hmul⟩ :=
      mkEchoFixedVolume_ok_shape comps fv dv a hmk
    subst ha
    refine ⟨d, hd, ?_⟩
    cases fuel with
    | zero => simp [MAction.each_volumes] at h
    | succ n =>
      simp only [MAction.each_volumes] at h
      cases h
      intro x hx
      rw [List.eq_of_mem_replicate hx, hf, hmul]
      exact ⟨k0, rfl⟩
  · intro comps fv dv method a hmk fuel v acts vs h
    obtain ⟨ha, f, d, k0, hf, hd, hdz, hmul⟩ :=
      mkEchoEqualTarget_ok_shape comps fv dv method a hmk
    subst ha
    subst hd
    refine ⟨d, rfl, ?_⟩
    cases fuel with
    | zero => simp [MAction.each_volumes] at h
    | succ n =>
      simp only [MAction.each_volumes] at h
      cases method with
      | min_volume =>
        cases hsc : sourceConcentrations n comps with
        | error e => rw [hsc] at h; dsimp only at h; cases h
        | ok sc =>
          rw [hsc] at h
          dsimp only at h
          cases hmax : pyMax sc with
          | error e => rw [hmax] at h; dsimp only at h; cases h
          | ok scmax =>
            rw [hmax] at h
            dsimp only at h
            exact quantScaled_multiple fv scmax d sc vs h
      | max_volume =>
        cases hsc : sourceConcentrations n comps with
        | error e => rw [hsc] at h; dsimp only at h; cases h
        | ok sc =>
          rw [hsc] at h
          dsimp only at h
          cases hmin : pyMin sc with
          | error e => rw [hmin] at h; dsimp only at h; cases h
          | ok scmin =>
            rw [hmin] at h
            dsimp only at h
            exact quantScaled_multiple fv scmin d sc vs h
      | max_fill plate =>
        cases hsc : sourceConcentrations n comps with
        | error e => rw [hsc] at h; dsimp only at h; cases h
        | ok sc =>
          rw [hsc] at h
          dsimp only at h
          cases hmin : pyMin sc with
          | error e => rw [hmin] at h; dsimp only at h; cases h
          | ok scmin =>
            rw [hmin] at h
            dsimp only at h
            exact quantScaled_multiple fv scmin d sc vs h
      | check =>
        cases hsc : sourceConcentrations n comps with
        | error e => rw [hsc] at h; dsimp only at h; cases h
        | ok sc =>
          rw [hsc] at h
          dsimp only at h
          by_cases hne : anyNeFirst sc = true
          · rw [if_pos hne] at h; cases h
          · rw [if_neg hne] at h
            cases h
            intro x hx
            rw [List.eq_of_mem_replicate hx, hf, hmul]
            exact ⟨k0, rfl⟩
  · intro comps ttv d fuel v acts vs h x hx
    cases fuel with
    | zero => simp [MAction.each_volumes] at h
    | succ n =>
      simp only [MAction.each_volumes] at h
      cases hsum : txVolumeSum n
          (acts.filter (fun b =>
            !(beqAction n b (.echoFillToVolume comps ttv (.val d)))))
          v acts with
      | error e => rw [hsum] at h; dsimp only at h; cases h
      | ok othervol =>
        rw [hsum] at h
        dsimp only at h
        by_cases hlen : 1 < comps.length
        · rw [if_pos hlen] at h; cases h
        · rw [if_neg hlen] at h
          cases hdiv : DQ.div
              (DQ.sub (if ttv.isNan then v else ttv) othervol) (.val d) with
          | error e => rw [hdiv] at h; dsimp only at h; cases h
          | ok q =>
            rw [hdiv] at h
            dsimp only at h
            cases hr : DQ.pyRound q with
            | error e => rw [hr] at h; dsimp only at h; cases h
            | ok k =>
              rw [hr] at h
              dsimp only at h
              cases h
              cases hx with
              | head => exact ⟨k, rfl⟩
              | tail _ hmem => cases hmem

/-- Witness for `echo_volumes_droplet_multiples`: a 1 µL fixed-volume echo
transfer against the 25 nL droplet volume. -/
theorem echo_volumes_droplet_multiples_witness :
    ∃ d : ℚ, (DQ.val (1/40)) = DQ.val d
      ∧ ∀ x ∈ [DQ.val 1], ∃ k : ℤ, x = DQ.val ((k : ℚ) * d) :=
  echo_volumes_droplet_multiples.1 [.leaf "W" (.val 100)] (.val 1)
    (.val (1/40)) (.echoFixedVolume [.leaf "W" (.val 100)] (.val 1) (.val (1/40)))
    rfl 1 DQ.nan [] [DQ.val 1] (by decide)

/-- Pointwise: Python `!=` against a defined value is the negation of
structural equality. -/
theorem pyNe_val (x : DQ) (q : ℚ) : DQ.pyNe x (.val q) = !(x == DQ.val q) := by
  cases x with
  | nan => rfl
  | val r =>
    simp only [DQ.pyNe, DQ.pyEq, beq_iff_eq]
    by_cases h : r = q
    · subst h; simp
    · simp [h]

/-- `any(x != sc[0] for x in sc)` is true exactly when not all source
concentrations are defined and equal. -/
theorem anyNeFirst_eq_not_allDefEq (sc : List DQ) :
    anyNeFirst sc = !allDefEq sc := by
  cases sc with
  | nil => rfl
  | cons s0 rest =>
    cases s0 with
    | nan =>
      simp [anyNeFirst, allDefEq, DQ.pyNe, DQ.pyEq]
    | val q =>
      simp only [anyNeFirst, allDefEq, List.any_cons, pyNe_val, beq_self_eq_true,
        Bool.not_true, Bool.false_or]
      induction rest with
      | nil => rfl
      | cons y ys ih =>
        simp only [List.any_cons, List.all_cons, pyNe_val, Bool.not_and, ih]

/-- Claim C8, amended: with the source concentrations resolved, the
`check` method raises exactly when they are not all defined and equal
(undefined NaN concentrations also raise, because `NaN != NaN` is true),
and returns the fixed volume unmodified for every component exactly when
they are all defined and equal. -/
theorem check_method_raises_iff (fuel : ℕ) (comps : List Component)
    (fv dv v : DQ) (acts : List MAction) (sc : List DQ)
    (hsc : sourceConcentrations fuel comps = .ok sc) :
    (MAction.each_volumes (fuel + 1)
        (.echoEqualTargetConcentration comps fv dv .check) v acts
      = .error .concentrationsDiffer ↔ allDefEq sc = false) ∧
    (MAction.each_volumes (fuel + 1)
        (.echoEqualTargetConcentration comps fv dv .check) v acts
      = .ok (List.replicate comps.length fv) ↔ allDefEq sc = true) := by
  simp only [MAction.each_volumes, hsc]
  rw [anyNeFirst_eq_not_allDefEq]
  cases h : allDefEq sc <;> simp

/-- Witness for `check_method_raises_iff`: two 5 nM sources. -/
theorem check_method_raises_iff_witness :
    MAction.each_volumes 4
        (.echoEqualTargetConcentration
          [.leaf "A" (.val 5), .leaf "B" (.val 5)] (.val 1) (.val (1/40))
          .check) (.val 10) []
      = .ok (List.replicate
          ([Component.leaf "A" (.val 5), .leaf "B" (.val 5)].length) (.val 1))
      ↔ allDefEq [DQ.val 5, DQ.val 5] = true :=
  (check_method_raises_iff 3
    [.leaf "A" (.val 5), .leaf "B" (.val 5)] (.val 1) (.val (1/40))
    (.val 10) [] [DQ.val 5, DQ.val 5] (by decide)).2

/-- Counterexample to claim C8: both source concentrations are the
undefined sentinel, so no two of them differ by a nonzero amount (every
pairwise difference is NaN), yet `each_volumes` raises. -/
theorem check_method_raises_on_undefined :
    MAction.each_volumes 100 checkNanAction (.val 10) []
      = .error .concentrationsDiffer ∧
    sourceConcentrations 99 checkNanAction.components = .ok [DQ.nan, DQ.nan] ∧
    (∀ x ∈ [DQ.nan, DQ.nan], ∀ y ∈ [DQ.nan, DQ.nan],
      (DQ.sub x y).isNan = true) := by
  refine ⟨by decide, by decide, by decide⟩

/-- Stripping spaces and hyphens is idempotent. -/
theorem stripSeq_idem (s : List Char) : stripSeq (stripSeq s) = stripSeq s := by
  simp [stripSeq, List.filter_filter]

/-- Invariant of the `Strand.with_reference` row loop: the receiver's
name, concentration, plate and well are never touched; its sequence is
either untouched or replaced by the stripped form of the original; and as
soon as some *matched* row carries a string sequence, the receiver's
sequence has been replaced by the stripped original. -/
theorem strandLoop_spec (rows : List RefRow) :
    ∀ (cur : Strand) (q : List Char),
      cur.sequence = some q ∨ cur.sequence = some (stripSeq q) →
      ((strandLoop cur rows).final.name = cur.name ∧
       (strandLoop cur rows).final.concentration = cur.concentration ∧
       (strandLoop cur rows).final.plate = cur.plate ∧
       (strandLoop cur rows).final.well = cur.well) ∧
      ((strandLoop cur rows).final.sequence = cur.sequence ∨
       (strandLoop cur rows).final.sequence = some (stripSeq q)) ∧
      ((∃ r ∈ (strandLoop cur rows).matched, r.sequence.isSome = true) →
       (strandLoop cur rows).final.sequence = some (stripSeq q)) := by
  induction rows with
  | nil =>
    intro cur q hq
    refine ⟨⟨rfl, rfl, rfl, rfl⟩, Or.inl rfl, ?_⟩
    rintro ⟨r, hr, _⟩
    simp [strandLoop] at hr
  | cons r rest ih =>
    intro cur q hq
    obtain ⟨s, hs, hstrip⟩ :
        ∃ s, cur.sequence = some s ∧ stripSeq s = stripSeq q := by
      rcases hq with h | h
      · exact ⟨q, h, rfl⟩
      · exact ⟨stripSeq q, h, stripSeq_idem q⟩
    cases hc1 : (!cur.concentration.isNan
        && !(DQ.pyEq r.conc cur.concentration)) with
    | true =>
      simp only [strandLoop, hc1, if_true]
      exact ih cur q hq
    | false =>
      cases hc2 : (cur.plate != "" && r.plate != cur.plate) with
      | true =>
        simp only [strandLoop, hc1, hc2, Bool.false_eq_true, if_false, if_true]
        exact ih cur q hq
      | false =>
        cases hc3 : (cur.well.isSome && cur.well != r.well) with
        | true =>
          simp only [strandLoop, hc1, hc2, hc3, Bool.false_eq_true, if_false,
            if_true]
          exact ih cur q hq
        | false =>
          cases hrs : r.sequence with
          | some rs =>
            simp only [strandLoop, hc1, hc2, hc3, Bool.false_eq_true, if_false,
              hs, hrs]
            have hq' : ({ cur with sequence := some (stripSeq s) } :
                Strand).sequence = some q ∨
                ({ cur with sequence := some (stripSeq s) } :
                Strand).sequence = some (stripSeq q) := by
              right
              simp [hstrip]
            have ihc := ih { cur with sequence := some (stripSeq s) } q hq'
            cases hc4 : (stripSeq s != stripSeq rs) with
            | true =>
              simp only [hc4, if_true]
              refine ⟨ihc.1, ?_, ?_⟩
              · rcases ihc.2.1 with h | h
                · right; rw [h]; simp [hstrip]
                · right; exact h
              · exact ihc.2.2
            | false =>
              simp only [hc4, Bool.false_eq_true, if_false]
              have hfin : (strandLoop { cur with sequence := some (stripSeq s) }
                  rest).final.sequence = some (stripSeq q) := by
                rcases ihc.2.1 with h | h
                · rw [h]; simp [hstrip]
                · exact h
              refine ⟨ihc.1, Or.inr hfin, fun _ => hfin⟩
          | none =>
            simp only [strandLoop, hc1, hc2, hc3, Bool.false_eq_true, if_false,
              hs, hrs]
            have ihc := ih cur q hq
            rw [hs] at ihc
            refine ⟨ihc.1, ihc.2.1, ?_⟩
            rintro ⟨r', hr', hsome⟩
            cases hr' with
            | head =>
              rw [hrs] at hsome
              cases hsome
            | tail _ hmem => exact ihc.2.2 ⟨r', hmem, hsome⟩

/-- Claim C10: `Strand.with_reference` with `inplace=False` is not a pure
transform.  When some matched reference row carries a string sequence
(and the receiver has a defined sequence), the receiver's own `sequence`
field ends up overwritten with its whitespace- and hyphen-stripped form
even though a fresh strand is returned; every other receiver field is
unchanged. -/
theorem strand_with_reference_mutates_receiver (s : Strand)
    (rows : List RefRow) (q : List Char) (p : Strand × Strand)
    (hq : s.sequence = some q)
    (hmat : ∃ r ∈ (strandLoop s
        (rows.filter (fun r => r.name == s.name))).matched,
      r.sequence.isSome = true)
    (h : Strand.with_reference s rows false = .ok p) :
    p.2 = { s with sequence := some (stripSeq q) } := by
  unfold Strand.with_reference at h
  by_cases hemp : (rows.filter (fun r => r.name == s.name)).isEmpty = true
  · rw [List.isEmpty_iff] at hemp
    rw [hemp] at hmat
    simp [strandLoop] at hmat
  · rw [if_neg hemp] at h
    dsimp only at h
    obtain ⟨r0, hr0, hr0some⟩ := hmat
    have hne : (strandLoop s
        (rows.filter (fun r => r.name == s.name))).matched.isEmpty = false := by
      cases hm : (strandLoop s
          (rows.filter (fun r => r.name == s.name))).matched with
      | nil => rw [hm] at hr0; cases hr0
      | cons m ms => rfl
    rw [hne] at h
    simp only [Bool.false_and, Bool.false_eq_true, if_false] at h
    cases hm : (strandLoop s
        (rows.filter (fun r => r.name == s.name))).matched with
    | nil => rw [hm] at hr0; cases hr0
    | cons m ms =>
      rw [hm] at h
      dsimp only at h
      cases h
      obtain ⟨⟨h1, h2, h3, h4⟩, _, himp⟩ :=
        strandLoop_spec (rows.filter (fun r => r.name == s.name)) s q
          (Or.inl hq)
      have h5 := himp ⟨r0, hr0, hr0some⟩
      rcases hfin : (strandLoop s
          (rows.filter (fun r => r.name == s.name))).final with
        ⟨n1, c1, p1, w1, s1⟩
      rw [hfin] at h1 h2 h3 h4 h5
      simp only at h1 h2 h3 h4 h5
      simp [h1, h2, h3, h4, h5]

/-- Witness for `strand_with_reference_mutates_receiver`: the strand with
sequence `"A C"` reconciled against a row with sequence `"AC"`; the
receiver comes back with sequence `"AC"` and nothing else changed. -/
theorem strand_with_reference_mutates_receiver_witness :
    (⟨"s1", DQ.nan, "", none, some ['A', 'C']⟩ : Strand)
      = { strandA with sequence := some (stripSeq ['A', ' ', 'C']) } :=
  strand_with_reference_mutates_receiver strandA [refRowA] ['A', ' ', 'C']
    (⟨"s1", .val 100, "P1", some "A1", some ['A', 'C']⟩,
     ⟨"s1", DQ.nan, "", none, some ['A', 'C']⟩)
    rfl (by decide) (by decide)

end AlhambraMixes
